import Mathlib

/-!
Shallow embedding of the Aetheria proof-of-stake blockchain core
(packages `blockchain` and `consensus` of the repository), together with
theorems settling the specification claims.

Modelling conventions:
* Go `uint64` arithmetic on amounts, fees, balances and stakes is modelled
  as `Nat` with explicit wrapping (`u64add`, reduction mod `2 ^ 64`) at
  every point where the Go code performs a machine addition.
* Go maps (`map[string]uint64`, `map[string]*Transaction`) are modelled as
  association lists with the Go semantics: an absent key reads as the zero
  value, insertion overwrites in place.
* The external cryptographic primitives (package `crypto`: SHA-256 hashing,
  Ed25519 key handling and signature verification, hex codecs) are an
  abstract interface, the `Crypto` structure; every operation of the core
  is parametric in it. A concrete executable instance (`toyCrypto`) is used
  to evaluate witnesses.
* Mutexes are elided: stateful Go methods become pure functions returning
  the updated receiver together with an optional error, so a method whose
  Go body mutates the receiver before failing returns the partially
  mutated value, exactly as the mutation would be observable in Go.
-/

namespace Aetheria

/-- Modulus of Go `uint64` arithmetic. -/
def U64LIMIT : Nat := 2 ^ 64

/-- Go `uint64` addition: wraps modulo `2 ^ 64`. -/
def u64add (a b : Nat) : Nat := (a + b) % U64LIMIT

/-- Read from a Go `map[string]uint64`: absent keys read as `0`. -/
def mget : List (String × Nat) → String → Nat
  | [], _ => 0
  | (k, v) :: r, a => if k = a then v else mget r a

/-- Write to a Go `map[string]uint64`: overwrite in place, append if absent. -/
def mset : List (String × Nat) → String → Nat → List (String × Nat)
  | [], a, v => [(a, v)]
  | (k, w) :: r, a, v => if k = a then (a, v) :: r else (k, w) :: mset r a v

/-- Abstract interface of the external `crypto` package.  Public keys and
signatures are abstract tokens represented as strings (in Go they are byte
slices); `hashString` models `crypto.HashString` (hex-encoded SHA-256),
`pubKeyFromHex` models `crypto.PublicKeyFromHex` (hex decode plus length
check, hence fallible), `pubKeyToAddress` models `crypto.PublicKeyToAddress`,
`sigFromHex` models `crypto.SignatureFromHex`, and `verify` models
`crypto.Verify` (Ed25519 verification). -/
structure Crypto where
  hashString : String → String
  pubKeyFromHex : String → Option String
  pubKeyToAddress : String → String
  sigFromHex : String → Option String
  verify : String → String → String → Bool

/-- `blockchain.Transaction` (file `transaction.go`). -/
structure Transaction where
  ID : String
  From : String
  To : String
  Amount : Nat
  Fee : Nat
  Timestamp : Int
  Signature : String
  PublicKey : String
deriving DecidableEq

/-- `Transaction.IsCoinbase`: a coinbase transaction has an empty `From`. -/
def Transaction.IsCoinbase (tx : Transaction) : Bool := tx.From = ""

/-- `Transaction.calculateID`: SHA-256 over the ASCII concatenation of the
fields `From`, `To`, `Amount`, `Fee`, `Timestamp` (decimal rendering for the
numbers, as Go `fmt.Sprintf` with `%d`). -/
def Transaction.calculateID (C : Crypto) (tx : Transaction) : String :=
  C.hashString (tx.From ++ tx.To ++ toString tx.Amount ++ toString tx.Fee
    ++ toString tx.Timestamp)

/-- `Transaction.dataToSign`: the signed payload
`ID || From || To || decimal(Amount) || decimal(Fee) || decimal(Timestamp)`. -/
def Transaction.dataToSign (tx : Transaction) : String :=
  tx.ID ++ tx.From ++ tx.To ++ toString tx.Amount ++ toString tx.Fee
    ++ toString tx.Timestamp

/-- Error outcomes of `Transaction.Verify`. -/
inductive TxErr where
  | notSigned
  | invalidPublicKey
  | fromMismatch
  | invalidSignatureHex
  | invalidSignature
deriving DecidableEq

/-- `Transaction.Verify` (file `transaction.go`): signature non-empty, the
public key decodes, `From` equals the address of the public key, the
signature decodes, and verification over `dataToSign` succeeds.  Note that
the stored `ID` is never compared with `calculateID`. -/
def Transaction.Verify (C : Crypto) (tx : Transaction) : Option TxErr :=
  if tx.Signature = "" then some .notSigned
  else
    match C.pubKeyFromHex tx.PublicKey with
    | none => some .invalidPublicKey
    | some pk =>
      if tx.From ≠ C.pubKeyToAddress pk then some .fromMismatch
      else
        match C.sigFromHex tx.Signature with
        | none => some .invalidSignatureHex
        | some sig =>
          if C.verify pk tx.dataToSign sig then none
          else some .invalidSignature

/-- `blockchain.State` (file `state.go`): balances and stakes, each a
`map[string]uint64`. -/
structure State where
  Balances : List (String × Nat)
  Stakes : List (String × Nat)
deriving DecidableEq

/-- `NewState`: both maps empty. -/
def NewState : State := ⟨[], []⟩

/-- `State.GetBalance`: absent addresses read as `0`. -/
def State.GetBalance (s : State) (address : String) : Nat :=
  mget s.Balances address

/-- `State.GetStake`: absent addresses read as `0`. -/
def State.GetStake (s : State) (address : String) : Nat :=
  mget s.Stakes address

/-- `State.AddBalance`: unchecked credit, wrapping `uint64` addition. -/
def State.AddBalance (s : State) (address : String) (amount : Nat) : State :=
  { s with
      Balances := mset s.Balances address
        (u64add (mget s.Balances address) amount) }

/-- `State.Clone`: deep copy of both maps.  On the immutable Lean values a
deep copy is the value itself. -/
def State.Clone (s : State) : State := ⟨s.Balances, s.Stakes⟩

/-- Error outcomes of state mutation. -/
inductive StErr where
  | insufficientBalance (has needs : Nat)
deriving DecidableEq

/-- `State.ApplyTransaction` (file `state.go`): a coinbase credits `To` with
`Amount`; otherwise the required total is the wrapping `uint64` sum
`Amount + Fee`, the sender's balance must reach it, the sender is debited by
it and the receiver credited with `Amount`. -/
def State.ApplyTransaction (s : State) (tx : Transaction) :
    State × Option StErr :=
  if tx.IsCoinbase then
    ({ s with
        Balances := mset s.Balances tx.To
          (u64add (mget s.Balances tx.To) tx.Amount) }, none)
  else
    let totalRequired := u64add tx.Amount tx.Fee
    if mget s.Balances tx.From < totalRequired then
      (s, some (.insufficientBalance (mget s.Balances tx.From) totalRequired))
    else
      let s1 : State :=
        { s with
            Balances := mset s.Balances tx.From
              (mget s.Balances tx.From - totalRequired) }
      ({ s1 with
          Balances := mset s1.Balances tx.To
            (u64add (mget s1.Balances tx.To) tx.Amount) }, none)

/-- `blockchain.Block` (file `block.go`). -/
structure Block where
  Index : Nat
  Timestamp : Int
  Transactions : List Transaction
  PrevHash : String
  Hash : String
  Validator : String
  Signature : String
deriving DecidableEq

/-- `Block.TotalFees`: wrapping `uint64` sum of the fees of the non-coinbase
transactions. -/
def Block.TotalFees (b : Block) : Nat :=
  b.Transactions.foldl
    (fun total tx => if tx.IsCoinbase then total else u64add total tx.Fee) 0

/-- `Block.calculateHash`: SHA-256 over
`decimal(Index) || decimal(Timestamp) || PrevHash || Validator` followed by
the concatenation of the transaction ids in order. -/
def Block.calculateHash (C : Crypto) (b : Block) : String :=
  C.hashString (toString b.Index ++ toString b.Timestamp ++ b.PrevHash
    ++ b.Validator ++ b.Transactions.foldl (fun acc tx => acc ++ tx.ID) "")

/-- `NewBlock`: builds the block and fills in its hash.  The Go constructor
reads the wall clock for the timestamp; the embedding takes the current time
as the explicit argument `now`. -/
def NewBlock (C : Crypto) (index : Nat) (transactions : List Transaction)
    (prevHash validator : String) (now : Int) : Block :=
  let block : Block :=
    { Index := index, Timestamp := now, Transactions := transactions,
      PrevHash := prevHash, Hash := "", Validator := validator,
      Signature := "" }
  { block with Hash := block.calculateHash C }

/-- The loop of `State.ApplyBlock`: apply the transactions in order, stopping
at the first failure; the error is tagged with the failing transaction's id
(Go wraps it as `failed to apply transaction <id>: ...`).  The returned state
reflects the transactions applied before the failure, exactly as the Go maps
would. -/
def applyTxsLoop : State → List Transaction →
    State × Option (String × StErr)
  | s, [] => (s, none)
  | s, tx :: rest =>
    match s.ApplyTransaction tx with
    | (s1, none) => applyTxsLoop s1 rest
    | (s1, some e) => (s1, some (tx.ID, e))

/-- `State.ApplyBlock` (file `state.go`): apply every transaction in order;
on success additionally credit the block's validator with the total fees when
they are positive. -/
def State.ApplyBlock (s : State) (b : Block) :
    State × Option (String × StErr) :=
  match applyTxsLoop s b.Transactions with
  | (s1, none) =>
    let fees := b.TotalFees
    (if fees > 0 then s1.AddBalance b.Validator fees else s1, none)
  | r => r

/-- Read from the Go `map[string]*Transaction` transaction pool. -/
def plookup : List (String × Transaction) → String → Option Transaction
  | [], _ => none
  | (k, v) :: r, a => if k = a then some v else plookup r a

/-- Write to the transaction pool: overwrite in place, append if absent. -/
def pset : List (String × Transaction) → String → Transaction →
    List (String × Transaction)
  | [], a, v => [(a, v)]
  | (k, w) :: r, a, v => if k = a then (a, v) :: r else (k, w) :: pset r a v

/-- `delete` on the transaction pool. -/
def pdelete (m : List (String × Transaction)) (k : String) :
    List (String × Transaction) :=
  m.filter (fun p => p.1 ≠ k)

/-- `blockchain.Blockchain` (file `blockchain.go`).  The mutex is elided. -/
structure Blockchain where
  Blocks : List Block
  PendingTxs : List Transaction
  State : State
  GenesisAddress : String
  txPool : List (String × Transaction)
deriving DecidableEq

/-- `BlockReward`: reward for creating a block. -/
def BlockReward : Nat := 50

/-- `Blockchain.createGenesisBlock`: a coinbase for the initial supply inside
a block with index 0, timestamp 0, previous hash `"0"`, validator
`"genesis"`, signature `"genesis"`. -/
def createGenesisBlock (C : Crypto) (address : String) (initialSupply : Nat) :
    Block :=
  let coinbase0 : Transaction :=
    { ID := "", From := "", To := address, Amount := initialSupply, Fee := 0,
      Timestamp := 0, Signature := "", PublicKey := "" }
  let coinbase := { coinbase0 with ID := coinbase0.calculateID C }
  let genesis0 : Block :=
    { Index := 0, Timestamp := 0, Transactions := [coinbase], PrevHash := "0",
      Hash := "", Validator := "genesis", Signature := "" }
  { genesis0 with Hash := genesis0.calculateHash C, Signature := "genesis" }

/-- `NewBlockchain`: empty pending list and pool, genesis block appended and
applied to the fresh state (the Go constructor discards `ApplyBlock`'s error,
which cannot occur for a coinbase). -/
def NewBlockchain (C : Crypto) (genesisAddress : String)
    (initialSupply : Nat) : Blockchain :=
  let genesis := createGenesisBlock C genesisAddress initialSupply
  { Blocks := [genesis], PendingTxs := [],
    State := (NewState.ApplyBlock genesis).1,
    GenesisAddress := genesisAddress, txPool := [] }

/-- `Blockchain.GetLatestBlock`: `none` models the Go `nil` return on an
empty chain. -/
def Blockchain.GetLatestBlock (bc : Blockchain) : Option Block :=
  bc.Blocks.getLast?

/-- `Blockchain.Height`: number of blocks. -/
def Blockchain.Height (bc : Blockchain) : Nat := bc.Blocks.length

/-- Error outcomes of the `Blockchain` mutators. -/
inductive BcErr where
  | nilLatestBlock
  | invalidBlockIndex (expected got : Nat)
  | invalidPrevHash
  | invalidBlockHash
  | invalidTx (id : String) (e : TxErr)
  | txInvalid (e : TxErr)
  | txAlreadyExists
  | insufficientBalance (has needs : Nat)
  | applyFailed (id : String) (e : StErr)
deriving DecidableEq

/-- The transaction-verification pass of `Blockchain.validateBlock`: the
first non-coinbase transaction that fails `Transaction.Verify` yields the
error, tagged with its id. -/
def verifyBlockTxs (C : Crypto) : List Transaction → Option BcErr
  | [] => none
  | tx :: rest =>
    if tx.IsCoinbase then verifyBlockTxs C rest
    else
      match Transaction.Verify C tx with
      | some e => some (.invalidTx tx.ID e)
      | none => verifyBlockTxs C rest

/-- `Blockchain.validateBlock`: index is `latest.Index + 1`, previous hash
matches, the stored hash equals the recomputed hash, and every non-coinbase
transaction verifies.  `nilLatestBlock` models the Go nil-pointer dereference
that an empty chain would cause; it is unreachable from a constructed chain. -/
def Blockchain.validateBlock (C : Crypto) (bc : Blockchain) (block : Block) :
    Option BcErr :=
  match bc.GetLatestBlock with
  | none => some .nilLatestBlock
  | some latest =>
    if block.Index ≠ latest.Index + 1 then
      some (.invalidBlockIndex (latest.Index + 1) block.Index)
    else if block.PrevHash ≠ latest.Hash then some .invalidPrevHash
    else if block.Hash ≠ block.calculateHash C then some .invalidBlockHash
    else verifyBlockTxs C block.Transactions

/-- `Blockchain.AddBlock` (file `blockchain.go`): validate, apply the block
to a clone of the state, and only on success swap the clone in, append the
block, delete the block's transactions from the pool and clear the pending
list.  On any failure the receiver is returned unchanged. -/
def Blockchain.AddBlock (C : Crypto) (bc : Blockchain) (block : Block) :
    Blockchain × Option BcErr :=
  match bc.validateBlock C block with
  | some e => (bc, some e)
  | none =>
    let tempState := bc.State.Clone
    match tempState.ApplyBlock block with
    | (_, some (id, e)) => (bc, some (.applyFailed id e))
    | (s1, none) =>
      ({ Blocks := bc.Blocks ++ [block], PendingTxs := [], State := s1,
         GenesisAddress := bc.GenesisAddress,
         txPool := block.Transactions.foldl
           (fun m tx => pdelete m tx.ID) bc.txPool }, none)

/-- `Blockchain.AddTransaction` (file `blockchain.go`): verify, refuse
duplicates by id, refuse when the balance is below the wrapping `uint64` sum
`Amount + Fee`, otherwise insert into the pool and append to the pending
list. -/
def Blockchain.AddTransaction (C : Crypto) (bc : Blockchain)
    (tx : Transaction) : Blockchain × Option BcErr :=
  match Transaction.Verify C tx with
  | some e => (bc, some (.txInvalid e))
  | none =>
    match plookup bc.txPool tx.ID with
    | some _ => (bc, some .txAlreadyExists)
    | none =>
      let balance := bc.State.GetBalance tx.From
      let totalRequired := u64add tx.Amount tx.Fee
      if balance < totalRequired then
        (bc, some (.insufficientBalance balance totalRequired))
      else
        ({ bc with
            txPool := pset bc.txPool tx.ID tx,
            PendingTxs := bc.PendingTxs ++ [tx] }, none)

/-- `Blockchain.CreateBlock` (file `blockchain.go`): a fresh coinbase paying
`BlockReward` to the validator, followed by the pending transactions in
order, wrapped into a block extending the latest one.  The Go code
dereferences the latest block unconditionally; the default is unreachable
from a constructed chain, whose block list is never empty. -/
def Blockchain.CreateBlock (C : Crypto) (bc : Blockchain) (validator : String)
    (now : Int) : Block :=
  let latest := bc.GetLatestBlock.getD
    { Index := 0, Timestamp := 0, Transactions := [], PrevHash := "",
      Hash := "", Validator := "", Signature := "" }
  let coinbase0 : Transaction :=
    { ID := "", From := "", To := validator, Amount := BlockReward, Fee := 0,
      Timestamp := 0, Signature := "", PublicKey := "" }
  let coinbase := { coinbase0 with ID := coinbase0.calculateID C }
  NewBlock C (latest.Index + 1) (coinbase :: bc.PendingTxs) latest.Hash
    validator now

/-- `consensus.Validator` (file `validator.go`).  The Ed25519 key fields are
not consulted by validator selection and are omitted here. -/
structure Validator where
  Address : String
  Stake : Nat
deriving DecidableEq

/-- `Validator.CanValidate`: stake reaches the minimum. -/
def Validator.CanValidate (v : Validator) (minStake : Nat) : Bool :=
  v.Stake ≥ minStake

/-- `consensus.PoS` configuration (file `pos.go`).  `BlockTime` is a Go
`time.Duration`, i.e. a count of nanoseconds. -/
structure PoS where
  MinStake : Nat
  BlockTime : Int
deriving DecidableEq

/-- Outcomes of `PoS.SelectValidator`.  `modByZeroPanic` models the Go
runtime panic of `big.Int.Mod` when the modulus (the total stake) is zero. -/
inductive SelErr where
  | noValidatorsAvailable
  | noEligibleValidators
  | modByZeroPanic
deriving DecidableEq

/-- The weighted-selection loop of `PoS.SelectValidator`: accumulate the
stakes (wrapping `uint64` addition, as in Go) and return the first validator
whose cumulative stake exceeds the target. -/
def selectLoop (target : Nat) : Nat → List Validator → Option Validator
  | _, [] => none
  | cumulative, v :: rest =>
    let c := u64add cumulative v.Stake
    if target < c then some v else selectLoop target c rest

/-- `PoS.SelectValidator` (file `pos.go`).  The Go method obtains the
validators by iterating the `ValidatorSet` hash map, whose order is
unspecified; the embedding therefore takes the iteration result as the
explicit list `validators`.  `generateSeed` is SHA-256 over
`prevBlockHash ++ big_endian_u64(timestamp)`; SHA-256 is an external
primitive, modelled by the explicit seed function `gen`. -/
def PoS.SelectValidator (pos : PoS) (gen : String → Int → Nat)
    (prevBlockHash : String) (timestamp : Int)
    (validators : List Validator) : Except SelErr Validator :=
  if validators.isEmpty then .error .noValidatorsAvailable
  else
    let eligibleValidators :=
      validators.filter (fun v => v.CanValidate pos.MinStake)
    if eligibleValidators.isEmpty then .error .noEligibleValidators
    else
      let totalStake :=
        eligibleValidators.foldl (fun acc v => u64add acc v.Stake) 0
      if totalStake = 0 then .error .modByZeroPanic
      else
        let seed := gen prevBlockHash timestamp
        let target := seed % totalStake
        match selectLoop target 0 eligibleValidators with
        | some v => .ok v
        | none => .ok (eligibleValidators.getLast?.getD ⟨"", 0⟩)

/-- Nanoseconds per second, for Go `time` arithmetic. -/
def nsPerSec : Int := 1000000000

/-- `PoS.GetNextBlockTime`: the instant `time.Unix(lastBlockTime, 0)` plus
`BlockTime`, as a count of nanoseconds. -/
def PoS.GetNextBlockTime (pos : PoS) (lastBlockTime : Int) : Int :=
  lastBlockTime * nsPerSec + pos.BlockTime

/-- `PoS.ShouldCreateBlock`: Go's `time.Now().After(next)` is a strict
comparison.  The wall-clock reading is the explicit argument `now`, an
instant in nanoseconds. -/
def PoS.ShouldCreateBlock (pos : PoS) (lastBlockTime : Int) (now : Int) :
    Bool :=
  now > pos.GetNextBlockTime lastBlockTime

/-- A concrete executable instance of the `Crypto` interface used to
evaluate witnesses: hashing prefixes a marker, key and signature tokens
decode to themselves (the empty public key is rejected, as a wrong-length
hex string would be), the address of a key prefixes `@`, and a valid
signature of `data` under key `pk` is the string `sig:pk:data`. -/
def toyCrypto : Crypto :=
  { hashString := fun s => "#" ++ s
    pubKeyFromHex := fun s => if s = "" then none else some s
    pubKeyToAddress := fun pk => "@" ++ pk
    sigFromHex := fun s => some s
    verify := fun pk data sig => sig = "sig:" ++ pk ++ ":" ++ data }

/-- Signing under `toyCrypto`: produces exactly the signatures that
`toyCrypto.verify` accepts. -/
def toySign (pk data : String) : String := "sig:" ++ pk ++ ":" ++ data

/-- Modelled from the spec's words, for comparison with `State.ApplyBlock`
(claim about `apply_block` equalling "the fold of apply_transaction over the
block's transactions in their listed order"): the plain fold, with no other
balance or stake updates. -/
def specApplyFold (s : State) (txs : List Transaction) : State :=
  txs.foldl (fun st tx => (st.ApplyTransaction tx).1) s

/-- Total of all balances and stakes of a state, used to express
conservation of funds. -/
def totalFunds (s : State) : Nat :=
  (s.Balances.map (fun p => p.2)).sum + (s.Stakes.map (fun p => p.2)).sum

instance : DecidableEq (Except SelErr Validator) := fun a b =>
  match a, b with
  | .ok x, .ok y =>
    if h : x = y then isTrue (by rw [h])
    else isFalse (fun hc => h (Except.ok.inj hc))
  | .error x, .error y =>
    if h : x = y then isTrue (by rw [h])
    else isFalse (fun hc => h (Except.error.inj hc))
  | .ok _, .error _ => isFalse (fun hc => nomatch hc)
  | .error _, .ok _ => isFalse (fun hc => nomatch hc)

/-- `toyCrypto` addresses are never the empty string, as with the real
40-hex-character addresses. -/
theorem toyCrypto_address_ne_empty :
    ∀ pk, toyCrypto.pubKeyToAddress pk ≠ "" := by
  intro pk h
  have h2 := congrArg String.length h
  rw [show toyCrypto.pubKeyToAddress pk = "@" ++ pk from rfl,
    String.length_append] at h2
  have h1 : "@".length = 1 := rfl
  have h0 : ("" : String).length = 0 := rfl
  rw [h1, h0] at h2
  omega

/-- Deleting each block transaction's id from the pool in turn keeps exactly
the entries whose key matches none of the ids. -/
theorem foldl_pdelete_eq_filter (txs : List Transaction) :
    ∀ m : List (String × Transaction),
      txs.foldl (fun m tx => pdelete m tx.ID) m
        = m.filter (fun p => txs.all (fun tx => p.1 ≠ tx.ID)) := by
  induction txs with
  | nil =>
    intro m
    simp
  | cons tx rest ih =>
    intro m
    rw [List.foldl_cons, ih]
    unfold pdelete
    rw [List.filter_filter]
    apply List.filter_congr
    intro p _
    rw [List.all_cons]
    exact Bool.and_comm _ _

/-- If the transaction loop of `State.ApplyBlock` succeeds, its result is the
plain fold of `State.ApplyTransaction`. -/
theorem applyTxsLoop_ok (txs : List Transaction) :
    ∀ s s1 : State, applyTxsLoop s txs = (s1, none) →
      s1 = specApplyFold s txs := by
  induction txs with
  | nil =>
    intro s s1 h
    simp [applyTxsLoop] at h
    simp [specApplyFold, h]
  | cons tx rest ih =>
    intro s s1 h
    unfold applyTxsLoop at h
    cases hstep : s.ApplyTransaction tx with
    | mk s2 oe =>
      rw [hstep] at h
      cases oe with
      | none =>
        simp at h
        have h2 := ih s2 s1 h
        simp [specApplyFold, List.foldl_cons, hstep] at h2 ⊢
        exact h2
      | some e => simp at h

/-- If the transaction loop of `State.ApplyBlock` fails, the reported id is
the id of the first failing transaction, and the failure arises from
applying that transaction to the fold of the preceding ones. -/
theorem applyTxsLoop_err (txs : List Transaction) :
    ∀ s s1 id e, applyTxsLoop s txs = (s1, some (id, e)) →
      ∃ pre tx suf, txs = pre ++ tx :: suf ∧ id = tx.ID ∧
        ((specApplyFold s pre).ApplyTransaction tx).2 = some e := by
  induction txs with
  | nil =>
    intro s s1 id e h
    simp [applyTxsLoop] at h
  | cons tx rest ih =>
    intro s s1 id e h
    unfold applyTxsLoop at h
    cases hstep : s.ApplyTransaction tx with
    | mk s2 oe =>
      rw [hstep] at h
      cases oe with
      | none =>
        simp at h
        obtain ⟨pre, t, suf, heq, hid, herr⟩ := ih s2 s1 id e h
        refine ⟨tx :: pre, t, suf, by simp [heq], hid, ?_⟩
        have hfold : specApplyFold s (tx :: pre) = specApplyFold s2 pre := by
          simp [specApplyFold, List.foldl_cons, hstep]
        rw [hfold]
        exact herr
      | some e2 =>
        simp at h
        obtain ⟨_, hid, herr⟩ := h
        refine ⟨[], tx, rest, rfl, hid.symm, ?_⟩
        simp [specApplyFold, hstep, herr]

/-! Concrete artifacts used by witnesses and counterexamples. -/

/-- A chain freshly constructed under `toyCrypto`, funding address `@k`. -/
def bcGenToy : Blockchain := NewBlockchain toyCrypto "@k" 1000000

/-- A block with a wrong index, rejected by `validateBlock`. -/
def badIndexBlock : Block :=
  { Index := 5, Timestamp := 0, Transactions := [], PrevHash := "",
    Hash := "", Validator := "", Signature := "" }

/-- A transfer of 100 with fee 1 from `@k` to `bobaddr`, signed under
`toyCrypto`. -/
def transferTx : Transaction :=
  { ID := "tid", From := "@k", To := "bobaddr", Amount := 100, Fee := 1,
    Timestamp := 3,
    Signature := toySign "k" (Transaction.dataToSign
      { ID := "tid", From := "@k", To := "bobaddr", Amount := 100, Fee := 1,
        Timestamp := 3, Signature := "", PublicKey := "k" }),
    PublicKey := "k" }

/-- `bcGenToy` after admitting `transferTx` to the mempool. -/
def bcWithPending : Blockchain :=
  (bcGenToy.AddTransaction toyCrypto transferTx).1

/-- A coinbase paying a foreign validator `v`. -/
def foreignCb : Transaction :=
  { ID := "cb2", From := "", To := "v", Amount := 50, Fee := 0,
    Timestamp := 0, Signature := "", PublicKey := "" }

/-- A valid successor block produced elsewhere: it extends the genesis block
of `bcGenToy` but carries only its own coinbase, not the pending
`transferTx`. -/
def foreignBlock : Block :=
  NewBlock toyCrypto 1 [foreignCb]
    (createGenesisBlock toyCrypto "@k" 1000000).Hash "v" 7

/-- A state holding exactly the funds needed for `feeBlock`'s transfer. -/
def feeState : State := ⟨[("a", 101)], []⟩

/-- A transfer inside `feeBlock`; `ApplyBlock` does not verify signatures,
so the signature fields are immaterial. -/
def feeTx : Transaction :=
  { ID := "t5", From := "a", To := "b", Amount := 100, Fee := 1,
    Timestamp := 0, Signature := "s", PublicKey := "p" }

/-- A block whose only transaction pays fee 1 to validator `v`. -/
def feeBlock : Block :=
  { Index := 1, Timestamp := 0, Transactions := [feeTx], PrevHash := "",
    Hash := "", Validator := "v", Signature := "" }

/-- A tiny chain under `toyCrypto` with an empty mempool. -/
def bcSmall : Blockchain := NewBlockchain toyCrypto "z" 5

/-- Coinbase of `smallBlock`. -/
def smallCb : Transaction :=
  { ID := "cbW", From := "", To := "w", Amount := 50, Fee := 0,
    Timestamp := 0, Signature := "", PublicKey := "" }

/-- A valid coinbase-only successor of `bcSmall`'s genesis block. -/
def smallBlock : Block :=
  NewBlock toyCrypto 1 [smallCb] (createGenesisBlock toyCrypto "z" 5).Hash
    "w" 3

/-- A non-coinbase transaction whose amount and fee wrap to zero in Go
`uint64` arithmetic. -/
def overflowTx : Transaction :=
  { ID := "t7", From := "a", To := "b", Amount := 2 ^ 64 - 1, Fee := 1,
    Timestamp := 0, Signature := "s", PublicKey := "p" }

/-- `bogusTx` before signing: its id is the arbitrary string `bogus`,
unrelated to `calculateID` over its fields. -/
def bogusTxBase : Transaction :=
  { ID := "bogus", From := "@k", To := "x", Amount := 1, Fee := 0,
    Timestamp := 0, Signature := "", PublicKey := "k" }

/-- A transaction with a forged id whose signature covers the stored id. -/
def bogusTx : Transaction :=
  { bogusTxBase with Signature := toySign "k" bogusTxBase.dataToSign }

/-- A chain under `toyCrypto` funding `@k` with 100. -/
def bcSmall10 : Blockchain := NewBlockchain toyCrypto "@k" 100

/-- A coinbase-shaped transaction submitted to the mempool path. -/
def coinbaseAttempt : Transaction :=
  { ID := "cb", From := "", To := "x", Amount := 5, Fee := 0, Timestamp := 0,
    Signature := "sig", PublicKey := "k" }

/-- PoS configuration with the repository's constants: minimum stake 1000,
block time 5 seconds. -/
def posStd : PoS := ⟨1000, 5 * nsPerSec⟩

/-- A seed function whose value is 500; it stands for SHA-256 at any
`(prev_hash, timestamp)` whose digest is congruent to 500 modulo the total
stake 4000. -/
def seed500 : String → Int → Nat := fun _ _ => 500

/-- The validator set `{alice: 1000, bob: 3000}` in one iteration order. -/
def vlistAB : List Validator := [⟨"alice", 1000⟩, ⟨"bob", 3000⟩]

/-- The same validator set in the other iteration order. -/
def vlistBA : List Validator := [⟨"bob", 3000⟩, ⟨"alice", 1000⟩]

/-- PoS configuration with minimum stake zero. -/
def zeroPoS : PoS := ⟨0, 0⟩

/-- A constant seed function. -/
def zeroSeed : String → Int → Nat := fun _ _ => 0

/-! Claim theorems. -/

/-- C1: if `AddBlock` returns an error on a chain with at least one block
(every reachable chain has its genesis block), the chain's height and its
state — balances and stakes — are exactly as before the call; no partial
application of the block's transactions is observable, because the block is
applied to a clone that is discarded on failure. -/
theorem addBlock_error_leaves_chain_unchanged (C : Crypto) (bc : Blockchain)
    (block : Block) (e : BcErr) (_hne : bc.Blocks ≠ [])
    (h : (bc.AddBlock C block).2 = some e) :
    (bc.AddBlock C block).1.Height = bc.Height ∧
    (bc.AddBlock C block).1.State = bc.State := by
  have key : (bc.AddBlock C block).1 = bc := by
    cases hv : bc.validateBlock C block with
    | some e2 => simp [Blockchain.AddBlock, hv]
    | none =>
      simp only [Blockchain.AddBlock, hv] at h ⊢
      cases ha : bc.State.Clone.ApplyBlock block with
      | mk s1 oe =>
        rw [ha] at h
        cases oe with
        | none => simp at h
        | some p => cases p; simp
  rw [key]
  exact ⟨rfl, rfl⟩

/-- Witness for C1: a block with a wrong index is rejected by the freshly
constructed chain, which keeps its height and state. -/
theorem addBlock_error_leaves_chain_unchanged_witness :
    (bcGenToy.AddBlock toyCrypto badIndexBlock).1.Height = bcGenToy.Height ∧
    (bcGenToy.AddBlock toyCrypto badIndexBlock).1.State = bcGenToy.State :=
  addBlock_error_leaves_chain_unchanged toyCrypto bcGenToy badIndexBlock
    (.invalidBlockIndex 1 5) (by decide) (by decide)

/-- C5 counterexample: `ApplyBlock` succeeds on `feeState`/`feeBlock`, yet
its result differs from the plain fold of `ApplyTransaction` over the
block's transactions — the code additionally credits the block's validator
with the total fees, an update the claim excludes. -/
theorem applyBlock_differs_from_plain_fold :
    (feeState.ApplyBlock feeBlock).2 = none ∧
    (feeState.ApplyBlock feeBlock).1 ≠
      specApplyFold feeState feeBlock.Transactions ∧
    (feeState.ApplyBlock feeBlock).1.GetBalance "v" = 1 ∧
    (specApplyFold feeState feeBlock.Transactions).GetBalance "v" = 0 := by
  decide

/-- C5 (amended): on success `ApplyBlock` equals the fold of
`ApplyTransaction` over the block's transactions in listed order, followed
by crediting the block's validator with the total non-coinbase fees when
they are positive; on failure the returned error names the id of the first
failing transaction. -/
theorem applyBlock_is_fold_then_fees (s : State) (b : Block) :
    (∀ s1, s.ApplyBlock b = (s1, none) →
      s1 = (if b.TotalFees > 0 then
          (specApplyFold s b.Transactions).AddBalance b.Validator b.TotalFees
        else specApplyFold s b.Transactions))
    ∧ (∀ s1 id e, s.ApplyBlock b = (s1, some (id, e)) →
        ∃ pre tx suf, b.Transactions = pre ++ tx :: suf ∧ id = tx.ID ∧
          ((specApplyFold s pre).ApplyTransaction tx).2 = some e) := by
  constructor
  · intro s1 h
    unfold State.ApplyBlock at h
    cases hl : applyTxsLoop s b.Transactions with
    | mk s2 oe =>
      rw [hl] at h
      cases oe with
      | none =>
        have h2 := applyTxsLoop_ok b.Transactions s s2 hl
        simp at h
        rw [← h, h2]
      | some p => cases p; simp at h
  · intro s1 id e h
    unfold State.ApplyBlock at h
    cases hl : applyTxsLoop s b.Transactions with
    | mk s2 oe =>
      rw [hl] at h
      cases oe with
      | none => simp at h
      | some p =>
        cases p
        simp at h
        obtain ⟨_, hid, he⟩ := h
        rw [← hid, ← he]
        exact applyTxsLoop_err b.Transactions s s2 _ _ hl

/-- Witness for C5: on the concrete fee-paying block the committed state is
the fold followed by the fee credit. -/
theorem applyBlock_is_fold_then_fees_witness :
    (feeState.ApplyBlock feeBlock).1 =
      (if feeBlock.TotalFees > 0 then
          (specApplyFold feeState feeBlock.Transactions).AddBalance
            feeBlock.Validator feeBlock.TotalFees
        else specApplyFold feeState feeBlock.Transactions) :=
  (applyBlock_is_fold_then_fees feeState feeBlock).1 _ (by decide)

/-- C2 counterexample: from the freshly constructed chain with
`transferTx` pending, committing a valid foreign block that does not carry
`transferTx` empties `pending` but leaves `transferTx` in `tx_pool`: the two
do not hold the same set and the pool is not empty. -/
theorem addBlock_commit_leaves_stale_pool_entry :
    (bcWithPending.AddBlock toyCrypto foreignBlock).2 = none ∧
    (bcWithPending.AddBlock toyCrypto foreignBlock).1.PendingTxs = [] ∧
    (bcWithPending.AddBlock toyCrypto foreignBlock).1.txPool ≠ [] ∧
    plookup (bcWithPending.AddBlock toyCrypto foreignBlock).1.txPool "tid"
      = some transferTx := by
  decide

/-- C2 (amended): after `AddBlock` commits a block, `pending` is empty and
`tx_pool` retains exactly the entries whose ids do not occur in the
committed block; both are empty only when the block carries every pooled
transaction. -/
theorem addBlock_commit_pool_pending (C : Crypto) (bc bc1 : Blockchain)
    (block : Block) (h : bc.AddBlock C block = (bc1, none)) :
    bc1.PendingTxs = [] ∧
    bc1.txPool = bc.txPool.filter
      (fun p => block.Transactions.all (fun tx => p.1 ≠ tx.ID)) := by
  cases hv : bc.validateBlock C block with
  | some e => simp [Blockchain.AddBlock, hv] at h
  | none =>
    simp only [Blockchain.AddBlock, hv] at h
    cases ha : bc.State.Clone.ApplyBlock block with
    | mk s1 oe =>
      rw [ha] at h
      cases oe with
      | some p => cases p; simp at h
      | none =>
        simp at h
        rw [← h]
        exact ⟨rfl, foldl_pdelete_eq_filter block.Transactions bc.txPool⟩

/-- Witness for C2: committing the coinbase-only `smallBlock` on `bcSmall`
empties `pending` and filters the pool by the block's ids. -/
theorem addBlock_commit_pool_pending_witness :
    (bcSmall.AddBlock toyCrypto smallBlock).1.PendingTxs = [] ∧
    (bcSmall.AddBlock toyCrypto smallBlock).1.txPool
      = bcSmall.txPool.filter
        (fun p => smallBlock.Transactions.all (fun tx => p.1 ≠ tx.ID)) :=
  addBlock_commit_pool_pending toyCrypto bcSmall _ smallBlock (by decide)

/-- C3: the weighted selection is sensitive to the iteration order of the
validator set.  The two lists are permutations of each other — the same
validator set `{alice: 1000, bob: 3000}` — yet with a seed congruent to 500
modulo the total stake 4000 the first order selects alice and the second
selects bob.  The Go code iterates a hash map, whose order is unspecified,
so two calls with identical arguments need not return the same validator. -/
theorem selectValidator_depends_on_iteration_order :
    List.Perm vlistAB vlistBA ∧
    posStd.SelectValidator seed500 "abc" 42 vlistAB
      = .ok ⟨"alice", 1000⟩ ∧
    posStd.SelectValidator seed500 "abc" 42 vlistBA
      = .ok ⟨"bob", 3000⟩ ∧
    posStd.SelectValidator seed500 "abc" 42 vlistAB
      ≠ posStd.SelectValidator seed500 "abc" 42 vlistBA := by
  decide

/-- C8 counterexample: with `min_stake = 0` and a single validator of stake
zero — every stake is zero, hence "zero or below min_stake" — the filtered
set is non-empty, the total stake is zero, and selection reaches the modulus
by the zero total stake (`big.Int.Mod` panics in Go) instead of failing with
`NoEligibleValidators`. -/
theorem selectValidator_zero_total_stake_mod :
    (∀ v ∈ [(⟨"a", 0⟩ : Validator)], v.Stake = 0 ∨ v.Stake < zeroPoS.MinStake) ∧
    zeroPoS.SelectValidator zeroSeed "h" 1 [⟨"a", 0⟩]
      = .error .modByZeroPanic ∧
    zeroPoS.SelectValidator zeroSeed "h" 1 [⟨"a", 0⟩]
      ≠ .error .noEligibleValidators := by
  decide

/-- C8 (amended): for every non-empty validator set in which every
validator's stake is strictly below `min_stake` (with `min_stake ≥ 1` this
covers all-zero stakes), selection fails with `NoEligibleValidators` for
every seed function, previous hash and timestamp, and never reaches the
modulus by the total stake. -/
theorem selectValidator_no_eligible (pos : PoS) (gen : String → Int → Nat)
    (prevHash : String) (ts : Int) (validators : List Validator)
    (hne : validators ≠ [])
    (hlow : ∀ v ∈ validators, v.Stake < pos.MinStake) :
    pos.SelectValidator gen prevHash ts validators
      = .error .noEligibleValidators := by
  have hempty : validators.filter (fun v => v.CanValidate pos.MinStake) = [] := by
    rw [List.filter_eq_nil_iff]
    intro v hv
    simp [Validator.CanValidate]
    exact hlow v hv
  simp [PoS.SelectValidator, hne, hempty]

/-- Witness for C8: under the repository's minimum stake 1000, a set with
stakes 0 and 999 yields `NoEligibleValidators`. -/
theorem selectValidator_no_eligible_witness :
    posStd.SelectValidator zeroSeed "h" 1 [⟨"a", 0⟩, ⟨"b", 999⟩]
      = .error .noEligibleValidators :=
  selectValidator_no_eligible posStd zeroSeed "h" 1 _ (by decide) (by decide)

/-- C9 counterexample: at the exact boundary `now = last_ts + block_time`
(in nanoseconds, with the repository's 5-second block time)
`ShouldCreateBlock` returns `false`, although `now ≥ last_ts + block_time`
holds: Go's `time.Now().After` is strict. -/
theorem shouldCreateBlock_false_at_boundary :
    posStd.ShouldCreateBlock 0 (posStd.GetNextBlockTime 0) = false ∧
    posStd.GetNextBlockTime 0 ≥ 0 * nsPerSec + posStd.BlockTime := by
  decide

/-- C9 (amended): `ShouldCreateBlock` returns `true` iff `now` is strictly
after `last_ts + block_time`; at the exact boundary it returns `false`. -/
theorem shouldCreateBlock_iff_strictly_after (pos : PoS)
    (lastBlockTime now : Int) :
    pos.ShouldCreateBlock lastBlockTime now = true ↔
      now > pos.GetNextBlockTime lastBlockTime := by
  simp [PoS.ShouldCreateBlock]

/-- C7: the required total `Amount + Fee` wraps in `uint64` arithmetic: for
the non-coinbase `overflowTx` with amount `2^64 - 1` and fee 1 the total
wraps to 0, so the balance check passes even on the empty state where the
sender's balance is 0, `ApplyTransaction` succeeds and credits the receiver
with the full amount, and the total of balances and stakes is not
conserved. -/
theorem applyTransaction_u64_wrap_breaks_conservation :
    overflowTx.IsCoinbase = false ∧
    u64add overflowTx.Amount overflowTx.Fee = 0 ∧
    NewState.GetBalance overflowTx.From = 0 ∧
    (NewState.ApplyTransaction overflowTx).2 = none ∧
    (NewState.ApplyTransaction overflowTx).1.GetBalance "b" = 2 ^ 64 - 1 ∧
    totalFunds (NewState.ApplyTransaction overflowTx).1
      ≠ totalFunds NewState := by
  decide

/-- C10: `Transaction.Verify` never recomputes the id: `bogusTx` carries the
arbitrary id `bogus`, different from `calculateID` over its fields, its
signature covers the stored id, `Verify` accepts it, and `AddTransaction`
admits it into the pool keyed by the forged id. -/
theorem verify_accepts_forged_id :
    Transaction.Verify toyCrypto bogusTx = none ∧
    bogusTx.ID ≠ bogusTx.calculateID toyCrypto ∧
    (bcSmall10.AddTransaction toyCrypto bogusTx).2 = none ∧
    plookup (bcSmall10.AddTransaction toyCrypto bogusTx).1.txPool "bogus"
      = some bogusTx := by
  decide

/-- C6: `AddTransaction` succeeds iff the transaction verifies, its id is
not already pooled, and the sender's balance reaches the (wrapping `uint64`)
total `Amount + Fee`; on success the transaction is inserted into the pool
and appended to the pending list; on any refusal the chain is unchanged; and
a coinbase transaction (empty `From`) is always refused on this path,
granted the crypto layer's addresses are never empty (real addresses are 40
hex characters). -/
theorem addTransaction_contract (C : Crypto) (bc : Blockchain)
    (tx : Transaction) (hAddr : ∀ pk, C.pubKeyToAddress pk ≠ "") :
    ((bc.AddTransaction C tx).2 = none ↔
      (Transaction.Verify C tx = none ∧ plookup bc.txPool tx.ID = none ∧
        u64add tx.Amount tx.Fee ≤ bc.State.GetBalance tx.From))
    ∧ ((bc.AddTransaction C tx).2 = none →
        (bc.AddTransaction C tx).1.txPool = pset bc.txPool tx.ID tx ∧
        (bc.AddTransaction C tx).1.PendingTxs = bc.PendingTxs ++ [tx])
    ∧ ((bc.AddTransaction C tx).2 ≠ none → (bc.AddTransaction C tx).1 = bc)
    ∧ (tx.From = "" → (bc.AddTransaction C tx).2 ≠ none) := by
  have hcb : tx.From = "" → Transaction.Verify C tx ≠ none := by
    intro h0 hv
    unfold Transaction.Verify at hv
    by_cases hs : tx.Signature = ""
    · simp [hs] at hv
    · simp only [hs, if_false] at hv
      cases hk : C.pubKeyFromHex tx.PublicKey with
      | none => rw [hk] at hv; simp at hv
      | some pk =>
        rw [hk] at hv
        have hm : tx.From ≠ C.pubKeyToAddress pk := by
          rw [h0]
          exact Ne.symm (hAddr pk)
        simp [hm] at hv
  cases hv : Transaction.Verify C tx with
  | some e =>
    refine ⟨?_, ?_, ?_, ?_⟩ <;>
      simp [Blockchain.AddTransaction, hv]
  | none =>
    cases hp : plookup bc.txPool tx.ID with
    | some t0 =>
      refine ⟨?_, ?_, ?_, ?_⟩ <;>
        simp [Blockchain.AddTransaction, hv, hp]
    | none =>
      by_cases hb : bc.State.GetBalance tx.From < u64add tx.Amount tx.Fee
      · refine ⟨?_, ?_, ?_, ?_⟩ <;>
          simp [Blockchain.AddTransaction, hv, hp, hb]
      · refine ⟨?_, ?_, ?_, ?_⟩ <;>
          simp [Blockchain.AddTransaction, hv, hp, hb] <;>
          first
            | omega
            | (intro h0; exact absurd hv (hcb h0))

/-- Witness for C6: on a concrete chain the coinbase-shaped submission is
refused by `AddTransaction`. -/
theorem addTransaction_contract_witness :
    (bcSmall10.AddTransaction toyCrypto coinbaseAttempt).2 ≠ none :=
  (addTransaction_contract toyCrypto bcSmall10 coinbaseAttempt
    toyCrypto_address_ne_empty).2.2.2 rfl

/-- C4: starting from a genesis chain funding the sender with 1 000 000,
admitting a verified transfer of 100 with fee 1 to a distinct receiver,
having the sender create the next block and committing it: the sender's
balance is 999 950 (debited 101, credited the 50 coinbase reward plus the
1 fee), the receiver's balance is 100, the height is 2, and the pending
list is empty. -/
theorem transfer_scenario (C : Crypto) (tx : Transaction) (now : Int)
    (hfrom : tx.From ≠ "") (hto : tx.To ≠ tx.From)
    (hamt : tx.Amount = 100) (hfee : tx.Fee = 1)
    (hv : Transaction.Verify C tx = none) :
    ((NewBlockchain C tx.From 1000000).AddTransaction C tx).2 = none ∧
    (((NewBlockchain C tx.From 1000000).AddTransaction C tx).1.PendingTxs
      = [tx]) ∧
    (((NewBlockchain C tx.From 1000000).AddTransaction C tx).1.AddBlock C
        (((NewBlockchain C tx.From 1000000).AddTransaction C tx).1.CreateBlock
          C tx.From now)).2 = none ∧
    (((NewBlockchain C tx.From 1000000).AddTransaction C tx).1.AddBlock C
        (((NewBlockchain C tx.From 1000000).AddTransaction C tx).1.CreateBlock
          C tx.From now)).1.State.GetBalance tx.From = 999950 ∧
    (((NewBlockchain C tx.From 1000000).AddTransaction C tx).1.AddBlock C
        (((NewBlockchain C tx.From 1000000).AddTransaction C tx).1.CreateBlock
          C tx.From now)).1.State.GetBalance tx.To = 100 ∧
    (((NewBlockchain C tx.From 1000000).AddTransaction C tx).1.AddBlock C
        (((NewBlockchain C tx.From 1000000).AddTransaction C tx).1.CreateBlock
          C tx.From now)).1.Height = 2 ∧
    (((NewBlockchain C tx.From 1000000).AddTransaction C tx).1.AddBlock C
        (((NewBlockchain C tx.From 1000000).AddTransaction C tx).1.CreateBlock
          C tx.From now)).1.PendingTxs = [] := by
  simp [NewBlockchain, createGenesisBlock, Transaction.calculateID, NewState,
    State.ApplyBlock, applyTxsLoop, State.ApplyTransaction,
    Transaction.IsCoinbase, mget, mset, u64add, U64LIMIT, Block.TotalFees,
    State.AddBalance, Blockchain.AddTransaction, hv, plookup, pset,
    State.GetBalance, Blockchain.CreateBlock, Blockchain.GetLatestBlock,
    NewBlock, Block.calculateHash, Blockchain.AddBlock,
    Blockchain.validateBlock, verifyBlockTxs, State.Clone, pdelete,
    Blockchain.Height, BlockReward, hfrom, hto, hamt, hfee, Ne.symm hto]

/-- Witness for C4: the concrete transfer `transferTx` signed under
`toyCrypto`, with the block created at time 99. -/
theorem transfer_scenario_witness :
    ((NewBlockchain toyCrypto transferTx.From 1000000).AddTransaction
      toyCrypto transferTx).2 = none ∧
    (((NewBlockchain toyCrypto transferTx.From 1000000).AddTransaction
      toyCrypto transferTx).1.PendingTxs = [transferTx]) ∧
    (((NewBlockchain toyCrypto transferTx.From 1000000).AddTransaction
        toyCrypto transferTx).1.AddBlock toyCrypto
        (((NewBlockchain toyCrypto transferTx.From 1000000).AddTransaction
          toyCrypto transferTx).1.CreateBlock toyCrypto transferTx.From
          99)).2 = none ∧
    (((NewBlockchain toyCrypto transferTx.From 1000000).AddTransaction
        toyCrypto transferTx).1.AddBlock toyCrypto
        (((NewBlockchain toyCrypto transferTx.From 1000000).AddTransaction
          toyCrypto transferTx).1.CreateBlock toyCrypto transferTx.From
          99)).1.State.GetBalance transferTx.From = 999950 ∧
    (((NewBlockchain toyCrypto transferTx.From 1000000).AddTransaction
        toyCrypto transferTx).1.AddBlock toyCrypto
        (((NewBlockchain toyCrypto transferTx.From 1000000).AddTransaction
          toyCrypto transferTx).1.CreateBlock toyCrypto transferTx.From
          99)).1.State.GetBalance transferTx.To = 100 ∧
    (((NewBlockchain toyCrypto transferTx.From 1000000).AddTransaction
        toyCrypto transferTx).1.AddBlock toyCrypto
        (((NewBlockchain toyCrypto transferTx.From 1000000).AddTransaction
          toyCrypto transferTx).1.CreateBlock toyCrypto transferTx.From
          99)).1.Height = 2 ∧
    (((NewBlockchain toyCrypto transferTx.From 1000000).AddTransaction
        toyCrypto transferTx).1.AddBlock toyCrypto
        (((NewBlockchain toyCrypto transferTx.From 1000000).AddTransaction
          toyCrypto transferTx).1.CreateBlock toyCrypto transferTx.From
          99)).1.PendingTxs = [] :=
  transfer_scenario toyCrypto transferTx 99 (by decide) (by decide)
    rfl rfl (by decide)

end Aetheria
